import Mathlib

/-!
Verification of the `SoftTeacher` contrastive training module
(`ssod/models/soft_teacher.py`).

Shallow embedding of: the feature memory queue (`_dequeue_and_enqueue`,
`concat_all_gather`), the relative-transform computation
(`_get_trans_mat`), the initial-threshold configuration check of
`extract_teacher_info`, the filename-based batch re-alignment of
`foward_unsup_train` / `foward_unsup_ctr_train`, the ground-truth
subsampling of `ctr_loss_2`, and the control flow of `ctr_loss` /
`ctr_loss_1` / `ctr_loss_2`.

Tensors are modelled as lists of rational rows; external collaborators
(backbone, ROI extractor, projector, sampler, the labeled-item index and
the random draws) are modelled as explicit oracle functions, so every
possible behaviour of those collaborators is quantified over.
-/

namespace SoftTeacher

/-- A feature row: one vector of the memory queue / one gathered feature. -/
abbrev Row := List ℚ

/-- Sum of squares of a vector; `sumSq v = 1` models the row being
L2-normalized (squared L2 norm equal to 1). -/
def sumSq (v : Row) : ℚ := (v.map (fun x => x * x)).sum

/-- The persistent buffer state of the detector: `queue_vector`
(a list of feature rows) together with the write cursor `queue_ptr`. -/
structure QueueState where
  queue : List Row
  ptr : Nat
deriving DecidableEq

/-- Write the rows `xs` into `q` starting at position `i`: the slice
assignment `queue_vector[i : i + len(xs), :] = xs`. -/
def writeSeg (q : List Row) (i : Nat) (xs : List Row) : List Row :=
  match xs with
  | [] => q
  | x :: rest => writeSeg (q.set i x) (i + 1) rest

theorem writeSeg_length (xs : List Row) (q : List Row) (i : Nat) :
    (writeSeg q i xs).length = q.length := by
  induction xs generalizing q i with
  | nil => rfl
  | cons x rest ih => rw [writeSeg, ih, List.length_set]

theorem writeSeg_getElem?_lt (xs : List Row) (q : List Row) (i m : Nat) (h : m < i) :
    (writeSeg q i xs)[m]? = q[m]? := by
  induction xs generalizing q i with
  | nil => rfl
  | cons x rest ih =>
    rw [writeSeg, ih _ _ (Nat.lt_succ_of_lt h), List.getElem?_set_ne]
    omega

theorem writeSeg_getElem?_ge (xs : List Row) (q : List Row) (i m : Nat)
    (h : i + xs.length ≤ m) : (writeSeg q i xs)[m]? = q[m]? := by
  induction xs generalizing q i with
  | nil => rfl
  | cons x rest ih =>
    rw [writeSeg, ih]
    · rw [List.getElem?_set_ne]
      simp at h; omega
    · simp at h ⊢; omega

theorem writeSeg_getElem?_inside (xs : List Row) (q : List Row) (i j : Nat)
    (hj : j < xs.length) (hq : i + xs.length ≤ q.length) :
    (writeSeg q i xs)[i + j]? = xs[j]? := by
  induction xs generalizing q i j with
  | nil => simp at hj
  | cons x rest ih =>
    cases j with
    | zero =>
      rw [writeSeg]
      simp only [Nat.add_zero]
      rw [writeSeg_getElem?_lt rest _ _ _ (Nat.lt_succ_self i)]
      have hi : i < q.length := by simp at hq; omega
      rw [List.getElem?_set_self hi]
      simp
    | succ j' =>
      rw [writeSeg]
      have harith : i + (j' + 1) = (i + 1) + j' := by omega
      rw [harith, ih]
      · simp
      · simpa using Nat.lt_of_succ_lt_succ (by simpa using hj)
      · simp at hq ⊢; omega

theorem writeSeg_mem (xs : List Row) (q : List Row) (i : Nat) (r : Row)
    (h : r ∈ writeSeg q i xs) : r ∈ q ∨ r ∈ xs := by
  induction xs generalizing q i with
  | nil => exact Or.inl h
  | cons x rest ih =>
    rcases ih _ _ h with h' | h'
    · rcases List.mem_or_eq_of_mem_set h' with h'' | h''
      · exact Or.inl h''
      · exact Or.inr (by simp [h''])
    · exact Or.inr (by simp [h'])

/-- A zero feature row of width `D` (one padding row of
`torch.zeros(max_batch - local_batch, D)`). -/
def zeroRow (D : Nat) : Row := List.replicate D 0

/-- Pad one worker's feature list with zero rows up to `maxB` rows. -/
def padTo (D maxB : Nat) (f : List Row) : List Row :=
  f ++ List.replicate (maxB - f.length) (zeroRow D)

/-- `concat_all_gather` (soft_teacher.py:460-489), seen from one worker:
`fss` lists every worker's local feature rows in rank order.  All workers
exchange their batch sizes, each pads its tensor with zero rows up to the
maximum reported size, the padded tensors are gathered, each gathered
chunk is truncated back to its reported size, and the chunks are
concatenated. -/
def concat_all_gather (D : Nat) (fss : List (List Row)) : List Row :=
  let batch_size_gather := fss.map List.length
  let max_batch := batch_size_gather.foldr max 0
  let features_gather := fss.map (padTo D max_batch)
  ((batch_size_gather.zip features_gather).map (fun p => p.2.take p.1)).flatten

theorem take_padTo (D m : Nat) (f : List Row) : (padTo D m f).take f.length = f :=
  List.take_left f (List.replicate (m - f.length) (zeroRow D))

theorem concat_all_gather_eq_flatten (D : Nat) (fss : List (List Row)) :
    concat_all_gather D fss = fss.flatten := by
  show (((fss.map List.length).zip
      (fss.map (padTo D ((fss.map List.length).foldr max 0)))).map
      (fun p => p.2.take p.1)).flatten = fss.flatten
  generalize (fss.map List.length).foldr max 0 = m
  induction fss with
  | nil => rfl
  | cons f rest ih => simp [take_padTo, ih]

/-- The queue update performed by `_dequeue_and_enqueue`
(soft_teacher.py:491-515) on the already-merged (gathered) batch: no-op
when the batch is empty; otherwise write the batch at the cursor,
splitting it into a tail segment `[ptr : K)` and a head segment
`[0 : redundant)` when it does not fit, and advance the cursor modulo
`K`.  (The `features.size(1) == projector_dim` assertion is a dimension
check on the rows and is not modelled: rows are kept abstract.) -/
def mergedEnqueue (K : Nat) (s : QueueState) (features : List Row) : QueueState :=
  let batch_size := features.length
  if batch_size = 0 then s
  else if K ≤ s.ptr + batch_size then
    let redundant := s.ptr + batch_size - K
    let q1 := writeSeg s.queue s.ptr (features.take (batch_size - redundant))
    let q2 := writeSeg q1 0 (features.drop (batch_size - redundant))
    ⟨q2, (s.ptr + batch_size) % K⟩
  else
    ⟨writeSeg s.queue s.ptr features, (s.ptr + batch_size) % K⟩

/-- `_dequeue_and_enqueue` (soft_teacher.py:491-515): gather every
worker's features, then update the queue with the merged batch. -/
def dequeue_and_enqueue (K D : Nat) (s : QueueState) (fss : List (List Row)) :
    QueueState :=
  mergedEnqueue K s (concat_all_gather D fss)

/-- C1: enqueueing a merged batch of size `B > 0` (with `B ≤ K`, cursor
`ptr < K`, queue of `K` rows) writes the batch at the cursor with
wraparound — row `j` lands at position `ptr + j` while `ptr + j < K`,
and when `ptr + B` exceeds `K` the remaining rows land at positions
`0 .. B - (K - ptr) - 1` — and the cursor becomes `(ptr + B) % K`. -/
theorem dequeue_and_enqueue_wraparound (K : Nat) (s : QueueState) (features : List Row)
    (hq : s.queue.length = K) (hptr : s.ptr < K)
    (hB : 0 < features.length) (hBK : features.length ≤ K) :
    (mergedEnqueue K s features).ptr = (s.ptr + features.length) % K ∧
    (∀ j, s.ptr + j < K → j < features.length →
      (mergedEnqueue K s features).queue[s.ptr + j]? = features[j]?) ∧
    (K < s.ptr + features.length →
      ∀ j, j < s.ptr + features.length - K →
        (mergedEnqueue K s features).queue[j]? = features[K - s.ptr + j]?) := by
  have hBne : features.length ≠ 0 := Nat.pos_iff_ne_zero.mp hB
  by_cases hwrap : K ≤ s.ptr + features.length
  · -- wraparound branch
    have henq : mergedEnqueue K s features =
        ⟨writeSeg
            (writeSeg s.queue s.ptr
              (features.take (features.length - (s.ptr + features.length - K))))
            0 (features.drop (features.length - (s.ptr + features.length - K))),
          (s.ptr + features.length) % K⟩ := by
      rw [mergedEnqueue]
      simp only [hBne, if_false, hwrap, if_true]
    set red := s.ptr + features.length - K with hred
    have hkeep : features.length - red = K - s.ptr := by omega
    have hlen_take : (features.take (features.length - red)).length = K - s.ptr := by
      rw [List.length_take]; omega
    have hlen_drop : (features.drop (features.length - red)).length = red := by
      rw [List.length_drop]; omega
    have hlen_q1 : (writeSeg s.queue s.ptr (features.take (features.length - red))).length
        = K := by rw [writeSeg_length, hq]
    refine ⟨by rw [henq], ?_, ?_⟩
    · intro j hjK hjB
      rw [henq]
      show (writeSeg _ 0 (features.drop (features.length - red)))[s.ptr + j]? = _
      rw [writeSeg_getElem?_ge _ _ _ _ (by rw [hlen_drop]; omega)]
      rw [writeSeg_getElem?_inside _ _ _ _ (by rw [hlen_take]; omega)
        (by rw [hlen_take, hq]; omega)]
      exact List.getElem?_take_of_lt (by omega)
    · intro hgt j hj
      rw [henq]
      show (writeSeg _ 0 (features.drop (features.length - red)))[j]? = _
      have : j = 0 + j := by omega
      rw [this, writeSeg_getElem?_inside _ _ _ _ (by rw [hlen_drop]; omega)
        (by rw [hlen_drop, hlen_q1]; omega)]
      rw [List.getElem?_drop]
      congr 1
      omega
  · -- no wraparound
    have henq : mergedEnqueue K s features =
        ⟨writeSeg s.queue s.ptr features, (s.ptr + features.length) % K⟩ := by
      rw [mergedEnqueue]
      simp only [hBne, if_false, hwrap, if_false]
    refine ⟨by rw [henq], ?_, ?_⟩
    · intro j hjK hjB
      rw [henq]
      show (writeSeg s.queue s.ptr features)[s.ptr + j]? = _
      exact writeSeg_getElem?_inside _ _ _ _ hjB (by omega)
    · intro hgt
      omega

/-- Witness for C1 at the claim's own instance shape (`K = 8`,
`ptr = K - 3 = 5`, `B = 5`): the first 3 rows land at positions 5..7,
the last 2 at positions 0..1, and the cursor becomes 2. -/
theorem dequeue_and_enqueue_wraparound_witness :
    (mergedEnqueue 8 ⟨List.replicate 8 ([0] : Row), 5⟩
        [[1], [2], [3], [4], [5]]).ptr = (5 + 5) % 8 ∧
    (∀ j, 5 + j < 8 → j < ([[1], [2], [3], [4], [5]] : List Row).length →
      (mergedEnqueue 8 ⟨List.replicate 8 ([0] : Row), 5⟩
        [[1], [2], [3], [4], [5]]).queue[5 + j]? =
        ([[1], [2], [3], [4], [5]] : List Row)[j]?) ∧
    (8 < 5 + ([[1], [2], [3], [4], [5]] : List Row).length →
      ∀ j, j < 5 + ([[1], [2], [3], [4], [5]] : List Row).length - 8 →
        (mergedEnqueue 8 ⟨List.replicate 8 ([0] : Row), 5⟩
          [[1], [2], [3], [4], [5]]).queue[j]? =
          ([[1], [2], [3], [4], [5]] : List Row)[8 - 5 + j]?) :=
  dequeue_and_enqueue_wraparound 8 ⟨List.replicate 8 ([0] : Row), 5⟩
    [[1], [2], [3], [4], [5]] (by decide) (by decide) (by decide) (by decide)

theorem mergedEnqueue_invariant (K : Nat) (hK : 0 < K) (s : QueueState)
    (fs : List Row) (hlen : s.queue.length = K) (hptr : s.ptr < K)
    (hq : ∀ r ∈ s.queue, sumSq r = 1) (hfs : ∀ r ∈ fs, sumSq r = 1) :
    (mergedEnqueue K s fs).queue.length = K ∧
    (∀ r ∈ (mergedEnqueue K s fs).queue, sumSq r = 1) ∧
    (mergedEnqueue K s fs).ptr < K := by
  by_cases h0 : fs.length = 0
  · rw [mergedEnqueue]
    simp only [h0, if_true]
    exact ⟨hlen, hq, hptr⟩
  by_cases hwrap : K ≤ s.ptr + fs.length
  · rw [mergedEnqueue]
    simp only [h0, if_false, hwrap, if_true]
    refine ⟨by rw [writeSeg_length, writeSeg_length, hlen], ?_, Nat.mod_lt _ hK⟩
    intro r hr
    rcases writeSeg_mem _ _ _ _ hr with h1 | h1
    · rcases writeSeg_mem _ _ _ _ h1 with h2 | h2
      · exact hq r h2
      · exact hfs r (List.mem_of_mem_take h2)
    · exact hfs r (List.mem_of_mem_drop h1)
  · rw [mergedEnqueue]
    simp only [h0, if_false, hwrap, if_false]
    refine ⟨by rw [writeSeg_length, hlen], ?_, Nat.mod_lt _ hK⟩
    intro r hr
    rcases writeSeg_mem _ _ _ _ hr with h1 | h1
    · exact hq r h1
    · exact hfs r h1

/-- C2: starting from any queue of exactly `K` L2-normalized rows with a
cursor in `[0, K)` (as produced by construction:
`F.normalize(torch.randn(memory_k, D))` and `queue_ptr = 0`), after any
sequence of `_dequeue_and_enqueue` operations whose input features are
all L2-normalized, the queue still has exactly `K` rows, every row is
L2-normalized, and the cursor stays in `[0, K)`. -/
theorem queue_invariant (K D : Nat) (hK : 0 < K) (init : QueueState)
    (hlen : init.queue.length = K) (hptr : init.ptr < K)
    (hinit : ∀ r ∈ init.queue, sumSq r = 1)
    (batches : List (List (List Row)))
    (hnorm : ∀ b ∈ batches, ∀ w ∈ b, ∀ r ∈ w, sumSq r = 1) :
    (batches.foldl (dequeue_and_enqueue K D) init).queue.length = K ∧
    (∀ r ∈ (batches.foldl (dequeue_and_enqueue K D) init).queue, sumSq r = 1) ∧
    (batches.foldl (dequeue_and_enqueue K D) init).ptr < K := by
  induction batches generalizing init with
  | nil => exact ⟨hlen, hinit, hptr⟩
  | cons b rest ih =>
    have hmerged : ∀ r ∈ concat_all_gather D b, sumSq r = 1 := by
      intro r hr
      rw [concat_all_gather_eq_flatten] at hr
      rcases List.mem_flatten.mp hr with ⟨w, hw, hrw⟩
      exact hnorm b (by simp) w hw r hrw
    have hstep := mergedEnqueue_invariant K hK init (concat_all_gather D b)
      hlen hptr hinit hmerged
    exact ih (dequeue_and_enqueue K D init b) hstep.1 hstep.2.2 hstep.2.1
      (fun b' hb' => hnorm b' (by simp [hb']))

/-- Witness for C2: a concrete queue of 2 normalized rows, one enqueue of
one normalized row from each of two workers. -/
theorem queue_invariant_witness :
    (([[[[1]]], [[[1]], [[1]]]] :
        List (List (List Row))).foldl (dequeue_and_enqueue 2 1)
        ⟨[[1], [1]], 0⟩).queue.length = 2 ∧
    (∀ r ∈ (([[[[1]]], [[[1]], [[1]]]] :
        List (List (List Row))).foldl (dequeue_and_enqueue 2 1)
        ⟨[[1], [1]], 0⟩).queue, sumSq r = 1) ∧
    (([[[[1]]], [[[1]], [[1]]]] :
        List (List (List Row))).foldl (dequeue_and_enqueue 2 1)
        ⟨[[1], [1]], 0⟩).ptr < 2 :=
  queue_invariant 2 1 (by decide) ⟨[[1], [1]], 0⟩ (by decide) (by decide)
    (by norm_num [sumSq]) [[[[1]]], [[[1]], [[1]]]] (by norm_num [sumSq])

/-- C4: the two-phase pad/gather/truncate protocol of
`concat_all_gather` returns exactly the concatenation of all workers'
original (unpadded) rows in rank order, the merged row count is the sum
of the local batch sizes, and `_dequeue_and_enqueue` leaves the queue
and cursor unchanged when the merged count is zero. -/
theorem concat_all_gather_exact (K D : Nat) (s : QueueState)
    (fss : List (List Row)) :
    concat_all_gather D fss = fss.flatten ∧
    (concat_all_gather D fss).length = (fss.map List.length).sum ∧
    ((concat_all_gather D fss).length = 0 → dequeue_and_enqueue K D s fss = s) := by
  refine ⟨concat_all_gather_eq_flatten D fss, ?_, ?_⟩
  · rw [concat_all_gather_eq_flatten, List.length_flatten]
  · intro h0
    rw [dequeue_and_enqueue, mergedEnqueue]
    simp only [h0, if_true]

/-- Witness for C4: two workers with 1 and 2 rows of width 2, and the
zero-row no-op at a pair of empty workers. -/
theorem concat_all_gather_exact_witness :
    (concat_all_gather 2 [[[1, 2]], [[3, 4], [5, 6]]] =
        ([[[1, 2]], [[3, 4], [5, 6]]] : List (List Row)).flatten ∧
      (concat_all_gather 2 [[[1, 2]], [[3, 4], [5, 6]]]).length =
        (([[[1, 2]], [[3, 4], [5, 6]]] : List (List Row)).map List.length).sum ∧
      ((concat_all_gather 2 [[[1, 2]], [[3, 4], [5, 6]]]).length = 0 →
        dequeue_and_enqueue 4 2 ⟨[[0], [0], [0], [0]], 1⟩
          [[[1, 2]], [[3, 4], [5, 6]]] = ⟨[[0], [0], [0], [0]], 1⟩)) ∧
    ((concat_all_gather 2 [[], []]).length = 0 →
      dequeue_and_enqueue 4 2 ⟨[[0], [0], [0], [0]], 1⟩ [[], []] =
        ⟨[[0], [0], [0], [0]], 1⟩) :=
  ⟨concat_all_gather_exact 4 2 ⟨[[0], [0], [0], [0]], 1⟩ [[[1, 2]], [[3, 4], [5, 6]]],
    (concat_all_gather_exact 4 2 ⟨[[0], [0], [0], [0]], 1⟩ [[], []]).2.2⟩

/-- A 3×3 rational matrix: one per-image homography-like transform. -/
structure Mat3 where
  m00 : ℚ
  m01 : ℚ
  m02 : ℚ
  m10 : ℚ
  m11 : ℚ
  m12 : ℚ
  m20 : ℚ
  m21 : ℚ
  m22 : ℚ
deriving DecidableEq

/-- Matrix product (`@` on 3×3 matrices). -/
def Mat3.mul (A B : Mat3) : Mat3 :=
  ⟨A.m00 * B.m00 + A.m01 * B.m10 + A.m02 * B.m20,
   A.m00 * B.m01 + A.m01 * B.m11 + A.m02 * B.m21,
   A.m00 * B.m02 + A.m01 * B.m12 + A.m02 * B.m22,
   A.m10 * B.m00 + A.m11 * B.m10 + A.m12 * B.m20,
   A.m10 * B.m01 + A.m11 * B.m11 + A.m12 * B.m21,
   A.m10 * B.m02 + A.m11 * B.m12 + A.m12 * B.m22,
   A.m20 * B.m00 + A.m21 * B.m10 + A.m22 * B.m20,
   A.m20 * B.m01 + A.m21 * B.m11 + A.m22 * B.m21,
   A.m20 * B.m02 + A.m21 * B.m12 + A.m22 * B.m22⟩

/-- The identity matrix. -/
def Mat3.id : Mat3 := ⟨1, 0, 0, 0, 1, 0, 0, 0, 1⟩

/-- Determinant of a 3×3 matrix. -/
def Mat3.det (A : Mat3) : ℚ :=
  A.m00 * (A.m11 * A.m22 - A.m12 * A.m21)
    - A.m01 * (A.m10 * A.m22 - A.m12 * A.m20)
    + A.m02 * (A.m10 * A.m21 - A.m11 * A.m20)

/-- Adjugate (transposed cofactor matrix) of a 3×3 matrix. -/
def Mat3.adjugate (A : Mat3) : Mat3 :=
  ⟨A.m11 * A.m22 - A.m12 * A.m21,
   -(A.m01 * A.m22 - A.m02 * A.m21),
   A.m01 * A.m12 - A.m02 * A.m11,
   -(A.m10 * A.m22 - A.m12 * A.m20),
   A.m00 * A.m22 - A.m02 * A.m20,
   -(A.m00 * A.m12 - A.m02 * A.m10),
   A.m10 * A.m21 - A.m11 * A.m20,
   -(A.m00 * A.m21 - A.m01 * A.m20),
   A.m00 * A.m11 - A.m01 * A.m10⟩

/-- Scalar multiple of a matrix. -/
def Mat3.smul (c : ℚ) (A : Mat3) : Mat3 :=
  ⟨c * A.m00, c * A.m01, c * A.m02, c * A.m10, c * A.m11, c * A.m12,
   c * A.m20, c * A.m21, c * A.m22⟩

/-- `torch.Tensor.inverse()` on a 3×3 matrix, via the adjugate formula
(total over ℚ; torch raises on a singular input, and the claims below
hypothesize invertibility). -/
def Mat3.inverse (A : Mat3) : Mat3 := Mat3.smul A.det⁻¹ A.adjugate

theorem Mat3.mul_assoc (A B C : Mat3) : (A.mul B).mul C = A.mul (B.mul C) := by
  simp only [Mat3.mul, Mat3.mk.injEq]
  refine ⟨?_, ?_, ?_, ?_, ?_, ?_, ?_, ?_, ?_⟩ <;> ring

theorem Mat3.id_mul (A : Mat3) : Mat3.id.mul A = A := by
  simp only [Mat3.mul, Mat3.id]
  cases A
  simp only [Mat3.mk.injEq]
  refine ⟨?_, ?_, ?_, ?_, ?_, ?_, ?_, ?_, ?_⟩ <;> ring

theorem Mat3.mul_smul_right (c : ℚ) (A B : Mat3) :
    A.mul (Mat3.smul c B) = Mat3.smul c (A.mul B) := by
  simp only [Mat3.mul, Mat3.smul, Mat3.mk.injEq]
  refine ⟨?_, ?_, ?_, ?_, ?_, ?_, ?_, ?_, ?_⟩ <;> ring

theorem Mat3.smul_mul_left (c : ℚ) (A B : Mat3) :
    (Mat3.smul c A).mul B = Mat3.smul c (A.mul B) := by
  simp only [Mat3.mul, Mat3.smul, Mat3.mk.injEq]
  refine ⟨?_, ?_, ?_, ?_, ?_, ?_, ?_, ?_, ?_⟩ <;> ring

theorem Mat3.smul_smul (c d : ℚ) (A : Mat3) :
    Mat3.smul c (Mat3.smul d A) = Mat3.smul (c * d) A := by
  simp only [Mat3.smul, Mat3.mk.injEq]
  refine ⟨?_, ?_, ?_, ?_, ?_, ?_, ?_, ?_, ?_⟩ <;> ring

theorem Mat3.one_smul (A : Mat3) : Mat3.smul 1 A = A := by
  cases A
  simp only [Mat3.smul, Mat3.mk.injEq]
  refine ⟨?_, ?_, ?_, ?_, ?_, ?_, ?_, ?_, ?_⟩ <;> ring

theorem Mat3.mul_adjugate (A : Mat3) : A.mul A.adjugate = Mat3.smul A.det Mat3.id := by
  simp only [Mat3.mul, Mat3.adjugate, Mat3.smul, Mat3.det, Mat3.id, Mat3.mk.injEq]
  refine ⟨?_, ?_, ?_, ?_, ?_, ?_, ?_, ?_, ?_⟩ <;> ring

theorem Mat3.adjugate_mul (A : Mat3) : A.adjugate.mul A = Mat3.smul A.det Mat3.id := by
  simp only [Mat3.mul, Mat3.adjugate, Mat3.smul, Mat3.det, Mat3.id, Mat3.mk.injEq]
  refine ⟨?_, ?_, ?_, ?_, ?_, ?_, ?_, ?_, ?_⟩ <;> ring

theorem Mat3.mul_inverse (A : Mat3) (hA : A.det ≠ 0) : A.mul A.inverse = Mat3.id := by
  rw [Mat3.inverse, Mat3.mul_smul_right, Mat3.mul_adjugate, Mat3.smul_smul,
    inv_mul_cancel₀ hA, Mat3.one_smul]

theorem Mat3.inverse_mul (A : Mat3) (hA : A.det ≠ 0) : A.inverse.mul A = Mat3.id := by
  rw [Mat3.inverse, Mat3.smul_mul_left, Mat3.adjugate_mul, Mat3.smul_smul,
    inv_mul_cancel₀ hA, Mat3.one_smul]

theorem Mat3.comp_inverse (A B : Mat3) (hA : A.det ≠ 0) (hB : B.det ≠ 0) :
    (B.mul A.inverse).mul (A.mul B.inverse) = Mat3.id := by
  rw [Mat3.mul_assoc, ← Mat3.mul_assoc A.inverse, Mat3.inverse_mul A hA,
    Mat3.id_mul, Mat3.mul_inverse B hB]

/-- `_get_trans_mat` (soft_teacher.py:332-334):
`[bt @ at.inverse() for bt, at in zip(b, a)]`. -/
def get_trans_mat (a b : List Mat3) : List Mat3 :=
  (b.zip a).map (fun p => p.1.mul p.2.inverse)

/-- C9: for lists of invertible per-image matrices, `_get_trans_mat(a, b)`
returns `b[i] @ inverse(a[i])` at every index, and composing with the
opposite-direction transform `_get_trans_mat(b, a)[i]` gives the
identity matrix. -/
theorem get_trans_mat_spec (a b : List Mat3) (i : Nat)
    (hia : i < a.length) (hib : i < b.length)
    (ha : ∀ A ∈ a, A.det ≠ 0) (hb : ∀ B ∈ b, B.det ≠ 0) :
    (get_trans_mat a b)[i]? =
      some ((b.getD i Mat3.id).mul (a.getD i Mat3.id).inverse) ∧
    ((get_trans_mat a b).getD i Mat3.id).mul
      ((get_trans_mat b a).getD i Mat3.id) = Mat3.id := by
  have hag : a.getD i Mat3.id = a[i] := by
    simp [List.getD_eq_getElem?_getD, List.getElem?_eq_getElem hia]
  have hbg : b.getD i Mat3.id = b[i] := by
    simp [List.getD_eq_getElem?_getD, List.getElem?_eq_getElem hib]
  have h1 : (get_trans_mat a b)[i]? = some ((b[i]).mul (a[i]).inverse) := by
    rw [get_trans_mat, List.getElem?_map,
      (List.getElem?_zip_eq_some (z := (b[i], a[i]))).mpr
        ⟨List.getElem?_eq_getElem hib, List.getElem?_eq_getElem hia⟩]
    rfl
  have h2 : (get_trans_mat b a)[i]? = some ((a[i]).mul (b[i]).inverse) := by
    rw [get_trans_mat, List.getElem?_map,
      (List.getElem?_zip_eq_some (z := (a[i], b[i]))).mpr
        ⟨List.getElem?_eq_getElem hia, List.getElem?_eq_getElem hib⟩]
    rfl
  refine ⟨by rw [h1, hag, hbg], ?_⟩
  rw [List.getD_eq_getElem?_getD, List.getD_eq_getElem?_getD, h1, h2]
  exact Mat3.comp_inverse a[i] b[i] (ha _ (List.getElem_mem hia))
    (hb _ (List.getElem_mem hib))

/-- Witness for C9 at concrete invertible matrices (a translation and a
scaling). -/
theorem get_trans_mat_spec_witness :
    (get_trans_mat [⟨1, 0, 2, 0, 1, 3, 0, 0, 1⟩] [⟨2, 0, 0, 0, 1, 0, 0, 0, 1⟩])[0]? =
      some ((([⟨2, 0, 0, 0, 1, 0, 0, 0, 1⟩] : List Mat3).getD 0 Mat3.id).mul
        (([⟨1, 0, 2, 0, 1, 3, 0, 0, 1⟩] : List Mat3).getD 0 Mat3.id).inverse) ∧
    ((get_trans_mat [⟨1, 0, 2, 0, 1, 3, 0, 0, 1⟩]
        [⟨2, 0, 0, 0, 1, 0, 0, 0, 1⟩]).getD 0 Mat3.id).mul
      ((get_trans_mat [⟨2, 0, 0, 0, 1, 0, 0, 0, 1⟩]
        [⟨1, 0, 2, 0, 1, 3, 0, 0, 1⟩]).getD 0 Mat3.id) = Mat3.id :=
  get_trans_mat_spec [⟨1, 0, 2, 0, 1, 3, 0, 0, 1⟩] [⟨2, 0, 0, 0, 1, 0, 0, 0, 1⟩] 0
    (by decide) (by decide)
    (by intro A hA; simp at hA; subst hA; norm_num [Mat3.det])
    (by intro B hB; simp at hB; subst hB; norm_num [Mat3.det])

/-- The configured `pseudo_label_initial_score_thr`: either a static
scalar float (`isinstance(..., float)` succeeds) or any other
configuration. -/
inductive ScoreThr where
  | flt (t : ℚ)
  | other
deriving DecidableEq

/-- One candidate detection: box corners, confidence score, class label. -/
structure Det where
  x1 : ℚ
  y1 : ℚ
  x2 : ℚ
  y2 : ℚ
  score : ℚ
  label : Nat
deriving DecidableEq

/-- Modelled from the spec: `filter_invalid` (imported from
`ssod/models/utils`, which is not under `src/`) — drops boxes with
`score < thr`, then drops boxes whose width or height is `< min_size`
(spec §4.2), applied independently per image. -/
def filter_invalid (dets : List Det) (thr : ℚ) (min_size : ℚ) : List Det :=
  ((dets.filter (fun d => decide (thr ≤ d.score))).filter
    (fun d => decide (min_size ≤ d.x2 - d.x1) && decide (min_size ≤ d.y2 - d.y1)))

/-- The initial-threshold step of `extract_teacher_info`
(soft_teacher.py:377-398): if the configured value is a float, use that
single scalar as the threshold for every image (and every class);
otherwise raise `NotImplementedError`. -/
def extract_teacher_info_thr (cfg : ScoreThr) (min_size : ℚ)
    (dets : List (List Det)) : Except String (List (List Det)) :=
  match cfg with
  | .flt thr => .ok (dets.map (fun image => filter_invalid image thr min_size))
  | .other => .error "Dynamic Threshold is not implemented yet."

/-- C8: the threshold step of `extract_teacher_info` raises if and only
if the configured initial score threshold is not a static scalar float;
when it is a float, that single scalar is applied uniformly to every
image's detections. -/
theorem extract_teacher_info_thr_spec (cfg : ScoreThr) (ms : ℚ)
    (dets : List (List Det)) :
    ((∃ e, extract_teacher_info_thr cfg ms dets = .error e) ↔ cfg = ScoreThr.other) ∧
    (∀ t, cfg = ScoreThr.flt t →
      extract_teacher_info_thr cfg ms dets =
        .ok (dets.map (fun image => filter_invalid image t ms))) := by
  cases cfg <;> simp [extract_teacher_info_thr]

/-- Witness for C8: a concrete float threshold is applied, and the
non-float configuration raises. -/
theorem extract_teacher_info_thr_witness :
    extract_teacher_info_thr (ScoreThr.flt (1/2)) 0 [[⟨0, 0, 4, 4, 1, 3⟩]] =
      .ok (([[⟨0, 0, 4, 4, 1, 3⟩]] : List (List Det)).map
        (fun image => filter_invalid image (1/2) 0)) ∧
    ((∃ e, extract_teacher_info_thr ScoreThr.other 0 [[⟨0, 0, 4, 4, 1, 3⟩]] =
      .error e) ↔ ScoreThr.other = ScoreThr.other) :=
  ⟨(extract_teacher_info_thr_spec (ScoreThr.flt (1/2)) 0 [[⟨0, 0, 4, 4, 1, 3⟩]]).2
      (1/2) rfl,
    (extract_teacher_info_thr_spec ScoreThr.other 0 [[⟨0, 0, 4, 4, 1, 3⟩]]).1⟩

/-- The index list `tidx = [tnames.index(name) for name in snames]`
computed by `foward_unsup_train` (soft_teacher.py:85-87) and
`foward_unsup_ctr_train` (soft_teacher.py:112-114). -/
def realign_index (tnames snames : List String) : List Nat :=
  snames.map (fun name => List.indexOf name tnames)

/-- Re-ordering of the teacher-role (or counterpart-role) per-image
records by `tidx` (`[teacher_data["img_metas"][idx] for idx in tidx]`);
a record is its filename (the join key) paired with its payload. -/
def realign (tmetas : List (String × α)) (snames : List String) :
    List (String × α) :=
  (realign_index (tmetas.map Prod.fst) snames).filterMap (fun idx => tmetas[idx]?)

/-- C6: for any ordering of the teacher/counterpart batch relative to the
student/anchor batch (every student filename present in the teacher
batch), the re-aligned teacher batch carries exactly the student batch's
filenames position by position — each student image is paired with the
teacher entry bearing the same filename, not the same index. -/
theorem realign_matches_filenames (tmetas : List (String × α)) (snames : List String)
    (h : ∀ n ∈ snames, n ∈ tmetas.map Prod.fst) :
    (realign tmetas snames).map Prod.fst = snames := by
  induction snames with
  | nil => rfl
  | cons n rest ih =>
    have hn : n ∈ tmetas.map Prod.fst := h n (by simp)
    have hidx : List.indexOf n (tmetas.map Prod.fst) < tmetas.length := by
      simpa using List.indexOf_lt_length.mpr hn
    have hfst : (tmetas[List.indexOf n (tmetas.map Prod.fst)]).1 = n := by
      have h1 := List.getElem_indexOf (l := tmetas.map Prod.fst) (a := n)
        (by simpa using hidx)
      rwa [List.getElem_map] at h1
    have hrest := ih (fun m hm => h m (by simp [hm]))
    simp only [realign, realign_index, List.map_cons, List.filterMap_cons,
      List.getElem?_eq_getElem hidx] at hrest ⊢
    simp only [List.map_cons, hfst, hrest]

/-- Witness for C6 at the claim's instance: teacher order `[b, a, c]`,
student order `[a, b, c]`; the pairing indices are `[1, 0, 2]` (student
index 0 ↦ teacher index 1) and the re-aligned teacher filenames are
`[a, b, c]`. -/
theorem realign_matches_filenames_witness :
    (realign [("b", 10), ("a", 11), ("c", 12)] ["a", "b", "c"]).map Prod.fst =
      ["a", "b", "c"] ∧
    realign_index ["b", "a", "c"] ["a", "b", "c"] = [1, 0, 2] :=
  ⟨realign_matches_filenames [("b", 10), ("a", 11), ("c", 12)] ["a", "b", "c"]
      (by decide),
    by decide⟩

/-- A bounding box (4 coordinates). -/
abbrev Box := List ℚ

theorem filterMap_getElem?_length (l : List α) (ri : List Nat)
    (h : ∀ j ∈ ri, j < l.length) :
    (ri.filterMap (fun j => l[j]?)).length = ri.length := by
  induction ri with
  | nil => rfl
  | cons j ri' ih =>
    rw [List.filterMap_cons, List.getElem?_eq_getElem (h j (by simp))]
    simp only [List.length_cons]
    rw [ih (fun j' hj' => h j' (by simp [hj']))]

theorem filterMap_getElem?_get (l : List α) (ri : List Nat)
    (h : ∀ j ∈ ri, j < l.length) (t : Nat) (ht : t < ri.length) :
    (ri.filterMap (fun j => l[j]?))[t]? = l[ri.getD t 0]? := by
  induction ri generalizing t with
  | nil => simp at ht
  | cons j ri' ih =>
    rw [List.filterMap_cons, List.getElem?_eq_getElem (h j (by simp))]
    cases t with
    | zero => simp
    | succ t' =>
      simp only [List.getElem?_cons_succ, List.getD_cons_succ]
      exact ih (fun j' hj' => h j' (by simp [hj'])) t' (by simpa using ht)

/-- The ground-truth subsampling loop at the head of `ctr_loss_2`
(soft_teacher.py:686-692): for each image `i` (the loop
`for box_i in range(len(bboxes))`), when the image holds more than
`ctr2_num` boxes, both `bboxes[i]` and `labels[i]` are replaced by the
rows selected by the `ctr2_num` random indices `rand i` (the draw of
`torch.randint(low=0, high=bboxes[i].size(0), size=(ctr2_num,))`,
supplied as an oracle so every possible draw is covered); otherwise the
entries are left unchanged. -/
def ctr2_subsample (n : Nat) (rand : Nat → List Nat)
    (bboxes : List (List Box)) (labels : List (List Nat)) :
    List (List Box) × List (List Nat) :=
  ((List.range bboxes.length).map (fun i =>
      let bb := bboxes.getD i []
      if n < bb.length then (rand i).filterMap (fun j => bb[j]?) else bb),
   (List.range labels.length).map (fun i =>
      let bb := bboxes.getD i []
      let lb := labels.getD i []
      if n < bb.length then (rand i).filterMap (fun j => lb[j]?) else lb))

theorem ctr2_subsample_core (n : Nat) (rand : Nat → List Nat)
    (bbs : List (List Box)) (lbs : List (List Nat))
    (i : Nat) (hi : i < bbs.length) (hil : i < lbs.length) :
    (ctr2_subsample n rand bbs lbs).1.length = bbs.length ∧
    (ctr2_subsample n rand bbs lbs).2.length = lbs.length ∧
    ((bbs.getD i []).length ≤ n →
      (ctr2_subsample n rand bbs lbs).1.getD i [] = bbs.getD i [] ∧
      (ctr2_subsample n rand bbs lbs).2.getD i [] = lbs.getD i []) ∧
    (n < (bbs.getD i []).length →
      (∀ j ∈ rand i, j < (bbs.getD i []).length) →
      (∀ j ∈ rand i, j < (lbs.getD i []).length) →
      (rand i).length = n →
      ((ctr2_subsample n rand bbs lbs).1.getD i []).length = n ∧
      ∀ t, t < n →
        ((ctr2_subsample n rand bbs lbs).1.getD i [])[t]? =
          (bbs.getD i [])[(rand i).getD t 0]? ∧
        ((ctr2_subsample n rand bbs lbs).2.getD i [])[t]? =
          (lbs.getD i [])[(rand i).getD t 0]?) := by
  have hfst : (ctr2_subsample n rand bbs lbs).1.getD i [] =
      (if n < (bbs.getD i []).length then
        (rand i).filterMap (fun j => (bbs.getD i [])[j]?) else bbs.getD i []) := by
    rw [ctr2_subsample]
    rw [List.getD_eq_getElem?_getD, List.getElem?_map,
      List.getElem?_eq_getElem (by simpa using hi)]
    simp [List.getElem_range]
  have hsnd : (ctr2_subsample n rand bbs lbs).2.getD i [] =
      (if n < (bbs.getD i []).length then
        (rand i).filterMap (fun j => (lbs.getD i [])[j]?) else lbs.getD i []) := by
    rw [ctr2_subsample]
    rw [List.getD_eq_getElem?_getD, List.getElem?_map,
      List.getElem?_eq_getElem (by simpa using hil)]
    simp [List.getElem_range]
  refine ⟨by simp [ctr2_subsample], by simp [ctr2_subsample], ?_, ?_⟩
  · intro hsmall
    have hcond : ¬ n < (bbs.getD i []).length := by omega
    rw [hfst, hsnd, if_neg hcond, if_neg hcond]
    exact ⟨rfl, rfl⟩
  · intro hbig hrb hrl hn
    rw [hfst, hsnd, if_pos hbig, if_pos hbig]
    refine ⟨by rw [filterMap_getElem?_length _ _ hrb, hn], ?_⟩
    intro t ht
    constructor
    · exact filterMap_getElem?_get _ _ hrb t (by omega)
    · exact filterMap_getElem?_get _ _ hrl t (by omega)

/-- C7: in `ctr_loss_2`, every image with more than `ctr2_num`
ground-truth boxes is subsampled to exactly `ctr2_num` boxes picked by
the uniform random index draw, with labels kept index-aligned (same
indices); images with at most `ctr2_num` boxes are left unchanged. -/
theorem ctr2_subsample_spec (n : Nat) (rand : Nat → List Nat)
    (bbs : List (List Box)) (lbs : List (List Nat))
    (i : Nat) (hi : i < bbs.length) (hil : i < lbs.length) :
    (ctr2_subsample n rand bbs lbs).1.length = bbs.length ∧
    (ctr2_subsample n rand bbs lbs).2.length = lbs.length ∧
    ((bbs.getD i []).length ≤ n →
      (ctr2_subsample n rand bbs lbs).1.getD i [] = bbs.getD i [] ∧
      (ctr2_subsample n rand bbs lbs).2.getD i [] = lbs.getD i []) ∧
    (n < (bbs.getD i []).length →
      (∀ j ∈ rand i, j < (bbs.getD i []).length) →
      (∀ j ∈ rand i, j < (lbs.getD i []).length) →
      (rand i).length = n →
      ((ctr2_subsample n rand bbs lbs).1.getD i []).length = n ∧
      ∀ t, t < n →
        ((ctr2_subsample n rand bbs lbs).1.getD i [])[t]? =
          (bbs.getD i [])[(rand i).getD t 0]? ∧
        ((ctr2_subsample n rand bbs lbs).2.getD i [])[t]? =
          (lbs.getD i [])[(rand i).getD t 0]?) :=
  ctr2_subsample_core n rand bbs lbs i hi hil

/-- Witness for C7: two images with boxes `[b0, b1]` and `[b2]`,
`ctr2_num = 1`, draw `[1]` for image 0: image 0 is truncated to `[b1]`
with its label, image 1 is unchanged. -/
theorem ctr2_subsample_spec_witness :
    (ctr2_subsample 1 (fun _ => [1]) [[[1], [2]], [[3]]] [[5, 6], [7]]).1.length =
      ([[[1], [2]], [[3]]] : List (List Box)).length ∧
    (ctr2_subsample 1 (fun _ => [1]) [[[1], [2]], [[3]]] [[5, 6], [7]]).2.length =
      ([[5, 6], [7]] : List (List Nat)).length ∧
    ((([[[1], [2]], [[3]]] : List (List Box)).getD 0 []).length ≤ 1 →
      (ctr2_subsample 1 (fun _ => [1]) [[[1], [2]], [[3]]] [[5, 6], [7]]).1.getD 0 [] =
        ([[[1], [2]], [[3]]] : List (List Box)).getD 0 [] ∧
      (ctr2_subsample 1 (fun _ => [1]) [[[1], [2]], [[3]]] [[5, 6], [7]]).2.getD 0 [] =
        ([[5, 6], [7]] : List (List Nat)).getD 0 []) ∧
    (1 < (([[[1], [2]], [[3]]] : List (List Box)).getD 0 []).length →
      (∀ j ∈ [1], j < (([[[1], [2]], [[3]]] : List (List Box)).getD 0 []).length) →
      (∀ j ∈ [1], j < (([[5, 6], [7]] : List (List Nat)).getD 0 []).length) →
      ([1] : List Nat).length = 1 →
      ((ctr2_subsample 1 (fun _ => [1]) [[[1], [2]], [[3]]]
          [[5, 6], [7]]).1.getD 0 []).length = 1 ∧
      ∀ t, t < 1 →
        ((ctr2_subsample 1 (fun _ => [1]) [[[1], [2]], [[3]]]
            [[5, 6], [7]]).1.getD 0 [])[t]? =
          (([[[1], [2]], [[3]]] : List (List Box)).getD 0 [])[([1] : List Nat).getD t 0]? ∧
        ((ctr2_subsample 1 (fun _ => [1]) [[[1], [2]], [[3]]]
            [[5, 6], [7]]).2.getD 0 [])[t]? =
          (([[5, 6], [7]] : List (List Nat)).getD 0 [])[([1] : List Nat).getD t 0]?) :=
  ctr2_subsample_spec 1 (fun _ => [1]) [[[1], [2]], [[3]]] [[5, 6], [7]] 0
    (by decide) (by decide)

/-- A heap of Python list objects live during `ctr_loss`: `boxObjs`
holds every list-of-box-tensors object and `lblObjs` every
list-of-label-tensors object; an address is an index into these.
`ctr_loss` (soft_teacher.py:612) passes `ctr_loss_2` the addresses of
the (validity-filtered) anchor `gt_bboxes` / `gt_labels` objects it
itself holds. -/
structure PyHeap where
  boxObjs : List (List (List Box))
  lblObjs : List (List (List Nat))

/-- The effect of `ctr_loss_2`'s subsampling loop on the heap: the
assignments `bboxes[box_i] = bboxes[box_i][rand_index]` and
`labels[box_i] = labels[box_i][rand_index]` (soft_teacher.py:687-692)
write through the references `ctr_loss` passed in — no copy of the
caller's lists is allocated. -/
def ctr_loss_2_mutation (n : Nat) (rand : Nat → List Nat) (h : PyHeap)
    (aB aL : Nat) : PyHeap :=
  let bbs := h.boxObjs.getD aB []
  let lbs := h.lblObjs.getD aL []
  let r := ctr2_subsample n rand bbs lbs
  ⟨h.boxObjs.set aB r.1, h.lblObjs.set aL r.2⟩

/-- C10: `ctr_loss_2` mutates the `gt_bboxes`/`gt_labels` list objects
passed by `ctr_loss` in place — after the call, reading through the
caller's own addresses shows entry `i` replaced by the subsampled
(truncated, length `ctr2_num`) tensors whenever image `i` had more than
`ctr2_num` boxes, and no new list object has been allocated. -/
theorem ctr_loss_2_mutates_in_place (n : Nat) (rand : Nat → List Nat)
    (h : PyHeap) (aB aL : Nat)
    (haB : aB < h.boxObjs.length) (haL : aL < h.lblObjs.length)
    (i : Nat) (hi : i < (h.boxObjs.getD aB []).length)
    (hil : i < (h.lblObjs.getD aL []).length)
    (hbig : n < ((h.boxObjs.getD aB []).getD i []).length)
    (hrb : ∀ j ∈ rand i, j < ((h.boxObjs.getD aB []).getD i []).length)
    (hrl : ∀ j ∈ rand i, j < ((h.lblObjs.getD aL []).getD i []).length)
    (hn : (rand i).length = n) :
    ((((ctr_loss_2_mutation n rand h aB aL).boxObjs.getD aB []).getD i []).length = n ∧
      ∀ t, t < n →
        (((ctr_loss_2_mutation n rand h aB aL).boxObjs.getD aB []).getD i [])[t]? =
          ((h.boxObjs.getD aB []).getD i [])[(rand i).getD t 0]? ∧
        (((ctr_loss_2_mutation n rand h aB aL).lblObjs.getD aL []).getD i [])[t]? =
          ((h.lblObjs.getD aL []).getD i [])[(rand i).getD t 0]?) ∧
    (ctr_loss_2_mutation n rand h aB aL).boxObjs.length = h.boxObjs.length ∧
    (ctr_loss_2_mutation n rand h aB aL).lblObjs.length = h.lblObjs.length := by
  have hreadB : (ctr_loss_2_mutation n rand h aB aL).boxObjs.getD aB [] =
      (ctr2_subsample n rand (h.boxObjs.getD aB []) (h.lblObjs.getD aL [])).1 := by
    rw [ctr_loss_2_mutation]
    rw [List.getD_eq_getElem?_getD, List.getElem?_set_self haB]
    rfl
  have hreadL : (ctr_loss_2_mutation n rand h aB aL).lblObjs.getD aL [] =
      (ctr2_subsample n rand (h.boxObjs.getD aB []) (h.lblObjs.getD aL [])).2 := by
    rw [ctr_loss_2_mutation]
    rw [List.getD_eq_getElem?_getD, List.getElem?_set_self haL]
    rfl
  have hcore := ctr2_subsample_core n rand (h.boxObjs.getD aB [])
    (h.lblObjs.getD aL []) i hi hil
  have hbig' := hcore.2.2.2 hbig hrb hrl hn
  refine ⟨⟨by rw [hreadB]; exact hbig'.1, ?_⟩, ?_, ?_⟩
  · intro t ht
    refine ⟨?_, ?_⟩
    · rw [hreadB]; exact (hbig'.2 t ht).1
    · rw [hreadL]; exact (hbig'.2 t ht).2
  · rw [ctr_loss_2_mutation]; exact List.length_set _ _ _
  · rw [ctr_loss_2_mutation]; exact List.length_set _ _ _

/-- Witness for C10: a heap with one box-list object `[[b0, b1]]` and one
label-list object `[[5, 6]]`; with `ctr2_num = 1` and draw `[1]`, the
object the caller still holds shows entry 0 truncated to one box/label. -/
theorem ctr_loss_2_mutates_in_place_witness :
    ((((ctr_loss_2_mutation 1 (fun _ => [1]) ⟨[[[[1], [2]]]], [[[5, 6]]]⟩
        0 0).boxObjs.getD 0 []).getD 0 []).length = 1 ∧
      ∀ t, t < 1 →
        (((ctr_loss_2_mutation 1 (fun _ => [1]) ⟨[[[[1], [2]]]], [[[5, 6]]]⟩
            0 0).boxObjs.getD 0 []).getD 0 [])[t]? =
          (((⟨[[[[1], [2]]]], [[[5, 6]]]⟩ : PyHeap).boxObjs.getD 0 []).getD 0
            [])[([1] : List Nat).getD t 0]? ∧
        (((ctr_loss_2_mutation 1 (fun _ => [1]) ⟨[[[[1], [2]]]], [[[5, 6]]]⟩
            0 0).lblObjs.getD 0 []).getD 0 [])[t]? =
          (((⟨[[[[1], [2]]]], [[[5, 6]]]⟩ : PyHeap).lblObjs.getD 0 []).getD 0
            [])[([1] : List Nat).getD t 0]?) ∧
    (ctr_loss_2_mutation 1 (fun _ => [1]) ⟨[[[[1], [2]]]], [[[5, 6]]]⟩
        0 0).boxObjs.length =
      (⟨[[[[1], [2]]]], [[[5, 6]]]⟩ : PyHeap).boxObjs.length ∧
    (ctr_loss_2_mutation 1 (fun _ => [1]) ⟨[[[[1], [2]]]], [[[5, 6]]]⟩
        0 0).lblObjs.length =
      (⟨[[[[1], [2]]]], [[[5, 6]]]⟩ : PyHeap).lblObjs.length :=
  ctr_loss_2_mutates_in_place 1 (fun _ => [1]) ⟨[[[[1], [2]]]], [[[5, 6]]]⟩ 0 0
    (by decide) (by decide) 0 (by decide) (by decide) (by decide)
    (by decide) (by decide) (by decide)

/-- One row of `bbox2roi` output: the image (batch) index paired with the
box. -/
abbrev Roi := Nat × Box

/-- `mmdet.core.bbox2roi`: concatenate per-image box lists, tagging each
box with its image index. -/
def bbox2roi (bss : List (List Box)) : List Roi :=
  (bss.enum.map (fun p => p.2.map (fun b => (p.1, b)))).flatten

/-- One per-image `SamplingResult` from the box assigner/sampler:
all sampled boxes plus the positive boxes with their assigned
ground-truth index and ground-truth label. -/
structure SampleRes where
  bboxes : List Box
  pos_assigned_gt_inds : List Nat
  pos_gt_labels : List Nat
  pos_bboxes : List Box
deriving DecidableEq

/-- One item from the labeled-item index
(`labeled_dataset.get_same_label_item`). -/
structure LabeledItem where
  gt_bboxes : List Box
  gt_labels : List Nat
deriving DecidableEq

/-- The external collaborators and random draws used by `ctr_loss`, as
oracles: the assigner/sampler, the ROI feature extractors, the
projectors, `F.normalize`, the `torch.randint` draws, the labeled-item
index, the cross-entropy evaluations and the current queue snapshot.
Quantifying over an arbitrary `CtrEnv` quantifies over every possible
behaviour of these collaborators. -/
structure CtrEnv where
  ctr2_num : Nat
  sampleAnchor : List (List Box) → List (List Nat) → List SampleRes
  sampleCtr : List (List Box) → List (List Nat) → List SampleRes
  roiStudent : List Roi → List Row
  roiTeacher : List Roi → List Row
  projStudent : List Row → List Row
  projTeacher : List Row → List Row
  normRows : List Row → List Row
  randSel : Nat → Nat
  rand2 : Nat → List Nat
  rand2sel : Nat → Nat
  exemplar : Nat → Nat → LabeledItem
  retryFuel : Nat
  crossEntropy1 : List Row → List Row → List Row → ℚ
  crossEntropy2 : List Row → List Row → List Row → ℚ
  queue : List Row

/-- One role's data bag as seen by `ctr_loss`: the image count
(`img.size(0)`), per-image ground-truth boxes and labels, and the
per-image metadata (filenames). -/
structure CtrData where
  img_num : Nat
  gt_bboxes : List (List Box)
  gt_labels : List (List Nat)
  img_metas : List String

/-- The returned loss dictionary of `ctr_loss`. -/
structure CtrLosses where
  ctr1_loss : ℚ
  ctr2_loss : ℚ
deriving DecidableEq

/-- The chained size assertion of soft_teacher.py:635-636:
`res.pos_assigned_gt_inds.size(0) == res.pos_gt_labels.size(0)
== res.pos_bboxes.size(0) != 0`. -/
def sampleAssertOk (r : SampleRes) : Bool :=
  (r.pos_assigned_gt_inds.length == r.pos_gt_labels.length) &&
  (r.pos_gt_labels.length == r.pos_bboxes.length) &&
  (r.pos_bboxes.length != 0)

/-- The counterpart-selection loop of `ctr_loss_1`
(soft_teacher.py:648-653): for each anchor positive's mapped
ground-truth index `g` (at running row index `k`), gather the counterpart
positives with the same mapped index and pick one at random;
`torch.randint(low=0, high=0, ...)` — an empty pool — raises. -/
def selectCtrProposal (randSel : Nat → Nat) (mapCtr : List Nat)
    (ctrProp : List Roi) : List Nat → Nat → Except Unit (List Roi)
  | [], _ => Except.ok []
  | g :: gs, k =>
    let pool := ((mapCtr.zip ctrProp).filter (fun q => q.1 == g)).map (fun q => q.2)
    if pool.length = 0 then Except.error ()
    else
      match selectCtrProposal randSel mapCtr ctrProp gs (k + 1) with
      | Except.error e => Except.error e
      | Except.ok rest =>
        Except.ok (pool.getD (randSel k % pool.length) (0, []) :: rest)

/-- `ctr_loss_1` (soft_teacher.py:617-679).  Returns the loss value and
the list of feature batches passed to `_dequeue_and_enqueue` (the
enqueue trace); failing assertions are modelled as `Except.error`. -/
def ctrLoss1M (env : CtrEnv) (aRes cRes : List SampleRes) :
    Except Unit (ℚ × List (List Row)) :=
  match aRes with
  | [] => Except.error ()
  | r0 :: _ =>
    let batch := r0.bboxes.length
    let pairs := aRes.zip cRes
    if ¬ (pairs.all (fun p => sampleAssertOk p.1 && sampleAssertOk p.2)) then
      Except.error ()
    else
      let pos_gt_map_anchor := (pairs.enum.map
        (fun q => q.2.1.pos_assigned_gt_inds.map (fun g => g + q.1 * batch))).flatten
      let pos_gt_map_ctr := (pairs.enum.map
        (fun q => q.2.2.pos_assigned_gt_inds.map (fun g => g + q.1 * batch))).flatten
      let pos_labels_anchor := (pairs.map (fun q => q.1.pos_gt_labels)).flatten
      let pos_labels_ctr := (pairs.map (fun q => q.2.pos_gt_labels)).flatten
      let anchor_proposal := bbox2roi (pairs.map (fun q => q.1.pos_bboxes))
      let ctr_proposal := bbox2roi (pairs.map (fun q => q.2.pos_bboxes))
      if ¬ ((pos_gt_map_anchor.length == pos_labels_anchor.length) &&
            (pos_labels_anchor.length == anchor_proposal.length)) then
        Except.error ()
      else if ¬ ((pos_gt_map_ctr.length == pos_labels_ctr.length) &&
            (pos_labels_ctr.length == ctr_proposal.length)) then
        Except.error ()
      else
        match selectCtrProposal env.randSel pos_gt_map_ctr ctr_proposal
            pos_gt_map_anchor 0 with
        | Except.error e => Except.error e
        | Except.ok ctr_select_proposal =>
          if ¬ (anchor_proposal.length == ctr_select_proposal.length) then
            Except.error ()
          else
            let student_proposals := env.roiStudent anchor_proposal
            let teacher_proposals := env.roiTeacher ctr_select_proposal
            if student_proposals.length = 0 ∨ teacher_proposals.length = 0 then
              Except.ok (0, [[]])
            else
              let student_vec := env.normRows (env.projStudent student_proposals)
              let teacher_vec := env.normRows (env.projTeacher teacher_proposals)
              Except.ok (env.crossEntropy1 student_vec teacher_vec env.queue,
                [teacher_vec])

/-- The retry loop of `ctr_loss_2` (soft_teacher.py:705-709): query the
labeled-item index until the returned item actually contains the queried
label.  The unbounded `while` is modelled with fuel; running out of fuel
(the loop never terminating) is modelled as an error. -/
def findExemplar (get : Nat → Nat → LabeledItem) (label : Nat) :
    Nat → Nat → Except Unit LabeledItem
  | _, 0 => Except.error ()
  | k, fuel + 1 =>
    let item := get label k
    if label ∈ item.gt_labels then Except.ok item
    else findExemplar get label (k + 1) fuel

/-- The exemplar-embedding loop of `ctr_loss_2` (soft_teacher.py:703-715):
for each positive's label, fetch a same-label exemplar, pick one of its
boxes with that label at random, extract and project its region feature
through the teacher path, and concatenate the rows. -/
def buildTeacherVec (env : CtrEnv) : List Nat → Nat → Except Unit (List Row)
  | [], _ => Except.ok []
  | label :: rest, k =>
    match findExemplar env.exemplar label k env.retryFuel with
    | Except.error e => Except.error e
    | Except.ok item =>
      let boxes := ((item.gt_bboxes.zip item.gt_labels).filter
        (fun p => p.2 == label)).map (fun p => p.1)
      let rois := bbox2roi [boxes]
      if rois.length = 0 then Except.error ()
      else
        let pick := rois.getD (env.rand2sel k % rois.length) (0, [])
        let vec := env.projTeacher (env.roiTeacher [pick])
        match buildTeacherVec env rest (k + 1) with
        | Except.error e => Except.error e
        | Except.ok restVec => Except.ok (vec ++ restVec)

/-- `ctr_loss_2` (soft_teacher.py:683-727).  Subsample oversized images,
extract and project anchor region features, build same-class exemplar
embeddings, and compute the loss; it performs no queue update, so its
result carries no enqueue trace. -/
def ctrLoss2M (env : CtrEnv) (bboxes : List (List Box))
    (labels : List (List Nat)) : Except Unit ℚ :=
  if ¬ (bboxes.length == labels.length) then Except.error ()
  else if ¬ ((bboxes.zip labels).all
      (fun p => (p.1.length == p.2.length) && (p.1.length != 0))) then
    Except.error ()
  else
    let sub := ctr2_subsample env.ctr2_num env.rand2 bboxes labels
    let student_proposal_rois := bbox2roi sub.1
    let student_proposals := env.roiStudent student_proposal_rois
    if student_proposals.length = 0 then Except.error ()
    else
      let student_vec := env.normRows (env.projStudent student_proposals)
      let all_labels := sub.2.flatten
      if ¬ (student_proposal_rois.length == all_labels.length) then
        Except.error ()
      else
        match buildTeacherVec env all_labels 0 with
        | Except.error e => Except.error e
        | Except.ok tv =>
          let teacher_vec := env.normRows tv
          if ¬ ((student_vec.length == teacher_vec.length) &&
              (student_vec.length != 0)) then Except.error ()
          else Except.ok (env.crossEntropy2 student_vec teacher_vec env.queue)

/-- The batch-level alignment assertion of soft_teacher.py:578 (and 608). -/
def alignOk (a c : CtrData) : Bool :=
  (a.gt_bboxes.length == c.gt_bboxes.length) &&
  (c.gt_bboxes.length == a.gt_labels.length) &&
  (a.gt_labels.length == c.gt_labels.length) &&
  (c.gt_labels.length == a.img_num) &&
  (a.img_num == c.img_num)

/-- The per-image alignment assertion of soft_teacher.py:593. -/
def perImageAlignOk (a c : CtrData) : Bool :=
  (List.range a.gt_bboxes.length).all (fun i =>
    ((a.gt_bboxes.getD i []).length == (a.gt_labels.getD i []).length) &&
    ((a.gt_labels.getD i []).length == (c.gt_bboxes.getD i []).length) &&
    ((c.gt_bboxes.getD i []).length == (c.gt_labels.getD i []).length))

/-- Indices of images with at least one ground-truth box
(soft_teacher.py:592-601). -/
def validIndices (anchor : CtrData) : List Nat :=
  (List.range anchor.gt_bboxes.length).filter
    (fun i => (anchor.gt_bboxes.getD i []).length != 0)

/-- Restriction of a data bag to the selected image indices
(soft_teacher.py:589-606). -/
def selectData (d : CtrData) (idx : List Nat) : CtrData :=
  ⟨idx.length,
   idx.filterMap (fun i => d.gt_bboxes[i]?),
   idx.filterMap (fun i => d.gt_labels[i]?),
   idx.filterMap (fun i => d.img_metas[i]?)⟩

/-- `ctr_loss` (soft_teacher.py:574-615).  Returns the loss dictionary
together with the enqueue trace: the list of feature batches passed to
`_dequeue_and_enqueue` during the call.  With no ground truth in the
batch it returns zero losses and performs one empty enqueue; otherwise
it filters out empty images, obtains sampling results (oracles standing
for `extract_ctr_info`), and runs `ctr_loss_1` then `ctr_loss_2`. -/
def ctrLossM (env : CtrEnv) (anchor ctr : CtrData) :
    Except Unit (CtrLosses × List (List Row)) :=
  if ¬ alignOk anchor ctr then Except.error ()
  else
    let gt_num := (anchor.gt_bboxes.map List.length).sum
    if gt_num = 0 then Except.ok (⟨0, 0⟩, [[]])
    else if ¬ perImageAlignOk anchor ctr then Except.error ()
    else
      let valid_ind := validIndices anchor
      let vAnchor := selectData anchor valid_ind
      let vCtr := selectData ctr valid_ind
      if ¬ alignOk vAnchor vCtr then Except.error ()
      else
        let aRes := env.sampleAnchor vAnchor.gt_bboxes vAnchor.gt_labels
        let cRes := env.sampleCtr vCtr.gt_bboxes vCtr.gt_labels
        match ctrLoss1M env aRes cRes with
        | Except.error e => Except.error e
        | Except.ok x =>
          match ctrLoss2M env vAnchor.gt_bboxes vAnchor.gt_labels with
          | Except.error e => Except.error e
          | Except.ok l2 => Except.ok (⟨x.1, l2⟩, x.2)

theorem ctrLoss1M_trace (env : CtrEnv) (aRes cRes : List SampleRes)
    (l : ℚ) (tr : List (List Row))
    (h : ctrLoss1M env aRes cRes = Except.ok (l, tr)) : tr.length = 1 := by
  simp only [ctrLoss1M] at h
  split at h
  · simp at h
  · split at h
    · simp at h
    · split at h
      · simp at h
      · split at h
        · simp at h
        · split at h
          · simp at h
          · split at h
            · simp at h
            · split at h
              · obtain ⟨-, rfl⟩ := by simpa using h
                rfl
              · obtain ⟨-, rfl⟩ := by simpa using h
                rfl

/-- C3: every run of `ctr_loss` that completes (its own and
`ctr_loss_1`/`ctr_loss_2`'s assertions all passing) calls
`_dequeue_and_enqueue` exactly once — the enqueue trace has length one on
every successful execution path, and on the zero-ground-truth path the
single enqueued batch is explicitly empty.  (`ctr_loss_2` contributes no
enqueue at all: its result type carries no trace.) -/
theorem ctr_loss_enqueue_once (env : CtrEnv) (anchor ctr : CtrData)
    (l : CtrLosses) (tr : List (List Row))
    (h : ctrLossM env anchor ctr = Except.ok (l, tr)) :
    tr.length = 1 ∧
    ((anchor.gt_bboxes.map List.length).sum = 0 → tr = [[]]) := by
  simp only [ctrLossM] at h
  split at h
  · simp at h
  · split at h
    · obtain ⟨-, rfl⟩ := by simpa using h
      exact ⟨rfl, fun _ => rfl⟩
    · rename_i hgt
      split at h
      · simp at h
      · split at h
        · simp at h
        · split at h
          · simp at h
          · rename_i x heq1
            split at h
            · simp at h
            · obtain ⟨-, rfl⟩ := by simpa using h
              refine ⟨?_, fun hz => absurd hz hgt⟩
              exact ctrLoss1M_trace env _ _ x.1 x.2 (by rw [heq1])

/-- Witness for C3: a concrete successful run (the zero-ground-truth
path) whose trace has length one. -/
theorem ctr_loss_enqueue_once_witness :
    ([([] : List Row)]).length = 1 ∧
    ((([] : List (List Box)).map List.length).sum = 0 → [([] : List Row)] = [[]]) :=
  ctr_loss_enqueue_once
    ⟨0, (fun _ _ => []), (fun _ _ => []), (fun r => r.map (fun _ => [1])),
      (fun r => r.map (fun _ => [1])), id, id, id, (fun _ => 0), (fun _ => []),
      (fun _ => 0), (fun _ _ => ⟨[], []⟩), 1, (fun _ _ _ => 0), (fun _ _ _ => 0), []⟩
    ⟨0, [], [], []⟩ ⟨0, [], [], []⟩ ⟨0, 0⟩ [[]] rfl

/-- The image pairing `ctr_loss` actually uses: image `i` of the
anchor-role batch is contrasted with image `i` of the counterpart-role
batch.  `forward_train` (soft_teacher.py:64) passes the
`ctr_anchor_sup` / `ctr_ctr_sup` groups to `ctr_loss` unchanged, and
`ctr_loss` itself is purely positional: the batch-level assert at 578,
the per-image loop at 592-603 (one index `i` for both bags) and
`zip(anchor_sample_res, ctr_sample_res)` at 634 all pair by index —
no filename is ever consulted. -/
def ctr_loss_pairing (anchor ctr : CtrData) : List (String × String) :=
  anchor.img_metas.zip ctr.img_metas

/-- `ctr_loss` never reads the batches' filenames: replacing either
bag's `img_metas` leaves the whole result (losses and enqueue trace)
unchanged, for every oracle environment. -/
theorem ctrLossM_ignores_img_metas (env : CtrEnv)
    (n1 n2 : Nat) (bb1 bb2 : List (List Box)) (lb1 lb2 : List (List Nat))
    (m1 m2 m3 m4 : List String) :
    ctrLossM env ⟨n1, bb1, lb1, m1⟩ ⟨n2, bb2, lb2, m2⟩ =
      ctrLossM env ⟨n1, bb1, lb1, m3⟩ ⟨n2, bb2, lb2, m4⟩ := rfl

/-- Counterexample to C6 as stated: with the counterpart batch a
permutation of the anchor batch (anchor filenames `[a, b]`, counterpart
filenames `[b, a]`), the pairing `ctr_loss` uses for loss computation
puts anchor image 0 (filename `a`) with counterpart image 0 (filename
`b`) — positional, not filename-matched — and the whole `ctr_loss`
result at this input is identical when the filenames are replaced by
arbitrary other ones, so no consulting of filenames can be taking
place. -/
theorem ctr_loss_positional_pairing_cex :
    ctr_loss_pairing ⟨2, [[[0, 0, 1, 1]], [[0, 0, 1, 1]]], [[0], [1]], ["a", "b"]⟩
        ⟨2, [[[0, 0, 1, 1]], [[0, 0, 1, 1]]], [[0], [1]], ["b", "a"]⟩ =
      [("a", "b"), ("b", "a")] ∧
    ctrLossM
        ⟨2, (fun _ _ => []), (fun _ _ => []), (fun r => r.map (fun _ => [1])),
          (fun r => r.map (fun _ => [1])), id, id, id, (fun _ => 0), (fun _ => []),
          (fun _ => 0), (fun _ _ => ⟨[], []⟩), 1, (fun _ _ _ => 0),
          (fun _ _ _ => 0), []⟩
        ⟨2, [[[0, 0, 1, 1]], [[0, 0, 1, 1]]], [[0], [1]], ["a", "b"]⟩
        ⟨2, [[[0, 0, 1, 1]], [[0, 0, 1, 1]]], [[0], [1]], ["b", "a"]⟩ =
      ctrLossM
        ⟨2, (fun _ _ => []), (fun _ _ => []), (fun r => r.map (fun _ => [1])),
          (fun r => r.map (fun _ => [1])), id, id, id, (fun _ => 0), (fun _ => []),
          (fun _ => 0), (fun _ _ => ⟨[], []⟩), 1, (fun _ _ _ => 0),
          (fun _ _ _ => 0), []⟩
        ⟨2, [[[0, 0, 1, 1]], [[0, 0, 1, 1]]], [[0], [1]], ["x", "y"]⟩
        ⟨2, [[[0, 0, 1, 1]], [[0, 0, 1, 1]]], [[0], [1]], ["y", "x"]⟩ :=
  ⟨rfl, rfl⟩

/-- C5 (amended): when the batch contains no ground-truth boxes at all,
`ctr_loss` returns zero `ctr1_loss` and `ctr2_loss` (not an error) and
still performs exactly one explicitly empty enqueue. -/
theorem ctr_loss_zero_gt (env : CtrEnv) (anchor ctr : CtrData)
    (halign : alignOk anchor ctr = true)
    (hzero : (anchor.gt_bboxes.map List.length).sum = 0) :
    ctrLossM env anchor ctr = Except.ok (⟨0, 0⟩, [[]]) := by
  simp only [ctrLossM, halign, hzero]
  simp

/-- Witness for C5's amended claim: a concrete aligned batch with zero
ground truth. -/
theorem ctr_loss_zero_gt_witness :
    ctrLossM
      ⟨0, (fun _ _ => []), (fun _ _ => []), (fun r => r.map (fun _ => [1])),
        (fun r => r.map (fun _ => [1])), id, id, id, (fun _ => 0), (fun _ => []),
        (fun _ => 0), (fun _ _ => ⟨[], []⟩), 1, (fun _ _ _ => 0), (fun _ _ _ => 0), []⟩
      ⟨1, [[]], [[]], ["a"]⟩ ⟨1, [[]], [[]], ["a"]⟩ = Except.ok (⟨0, 0⟩, [[]]) :=
  ctr_loss_zero_gt
    ⟨0, (fun _ _ => []), (fun _ _ => []), (fun r => r.map (fun _ => [1])),
      (fun r => r.map (fun _ => [1])), id, id, id, (fun _ => 0), (fun _ => []),
      (fun _ => 0), (fun _ _ => ⟨[], []⟩), 1, (fun _ _ _ => 0), (fun _ _ _ => 0), []⟩
    ⟨1, [[]], [[]], ["a"]⟩ ⟨1, [[]], [[]], ["a"]⟩ rfl rfl

/-- Counterexample to C5 as stated: a batch with one image holding one
ground-truth box whose sampling result carries no valid positive
proposals.  The claim predicts a zero-valued loss; the code instead
fails the assertion at soft_teacher.py:635 (`res_anchor.pos_…size(0) != 0`),
i.e. the run is an error, and no enqueue happens. -/
theorem ctr_loss_empty_positives_error :
    ctrLossM
      ⟨2, (fun _ _ => [⟨[[0, 0, 1, 1]], [], [], []⟩]),
        (fun _ _ => [⟨[[0, 0, 1, 1]], [], [], []⟩]),
        (fun r => r.map (fun _ => [1])), (fun r => r.map (fun _ => [1])),
        id, id, id, (fun _ => 0), (fun _ => []), (fun _ => 0),
        (fun _ _ => ⟨[[0, 0, 1, 1]], [0]⟩), 1, (fun _ _ _ => 0),
        (fun _ _ _ => 0), []⟩
      ⟨1, [[[0, 0, 1, 1]]], [[0]], ["a"]⟩
      ⟨1, [[[0, 0, 1, 1]]], [[0]], ["a"]⟩ = Except.error () := rfl

end SoftTeacher
